import Mathlib

/-!
Shallow embedding of the taskflow Django application (apps `projects`,
`tasks`, `accounts`): the data model and the view functions that the
verified properties concern, translated from the repository sources
(`projects/models.py`, `projects/forms.py`, `projects/views.py`,
`tasks/models.py`, `tasks/forms.py`, `tasks/views.py`,
`accounts/notification_models.py`).

Database tables are lists of records; a view takes the database and the
request data and returns the rendered outcome together with the database
after the request.  Users are opaque ids (external identity).  Timestamp
fields (auto_now_add and friends), tags and the HTML rendering are not
modelled: no verified property depends on them.  Whitespace stripping that
Django form cleaning performs on text fields is not modelled either; form
validity keeps the visible requirements (required fields, max_length).
A Python exception escaping a view (an uncaught TypeError or a database
IntegrityError) is modelled as an explicit raised outcome.
-/

namespace Taskflow

inductive Role where
  | admin
  | manager
  | member
  deriving DecidableEq, Repr

inductive PStatus where
  | active
  | archived
  deriving DecidableEq, Repr

inductive TStatus where
  | todo
  | in_progress
  | review
  | done
  deriving DecidableEq, Repr

inductive TPriority where
  | low
  | medium
  | high
  | urgent
  deriving DecidableEq, Repr

/-- `projects.models.Project` (id, title, description, status). -/
structure Project where
  id : Nat
  title : String
  description : String
  status : PStatus
  deriving DecidableEq, Repr

/-- `projects.models.ProjectMember`: the junction row (user, project, role). -/
structure ProjectMember where
  user : Nat
  project : Nat
  role : Role
  deriving DecidableEq, Repr

/-- `tasks.models.Task`.  `due_date` is a date modelled as a day number. -/
structure Task where
  id : Nat
  title : String
  description : String
  project : Nat
  assigned_to : Option Nat
  status : TStatus
  priority : TPriority
  due_date : Option Int
  created_by : Nat
  deriving DecidableEq, Repr

/-- `tasks.models.Comment`. -/
structure Comment where
  id : Nat
  task : Nat
  author : Nat
  content : String
  deriving DecidableEq, Repr

/-- The uploaded blob as Django exposes it on `self.file`: its own name and
its authoritative byte size. -/
structure FileBlob where
  name : List Char
  size : Nat
  deriving DecidableEq, Repr

/-- `tasks.models.Attachment`.  `id = none` before the first save, as in
Django where `self.id` is unset until the row is inserted. -/
structure Attachment where
  id : Option Nat
  task : Nat
  file : FileBlob
  file_name : List Char
  file_type : List Char
  file_size : Nat
  uploaded_by : Nat
  deriving DecidableEq, Repr

/-- `accounts.notification_models.Notification`. -/
structure Notification where
  id : Nat
  user : Nat
  content : String
  link : String
  read : Bool
  deriving DecidableEq, Repr

/-- The relational store: one list per table, plus the autoincrement counter
used for fresh primary keys. -/
structure DB where
  users : List Nat
  projects : List Project
  memberships : List ProjectMember
  tasks : List Task
  comments : List Comment
  attachments : List Attachment
  notifications : List Notification
  nextId : Nat
  deriving DecidableEq, Repr

/-- What a view returns to the caller.  `rendered` is a page render with no
mutation (a form page or a confirmation page), `redirected` the success
redirect after a mutation.  The comments give the source message of each
error outcome. -/
inductive Outcome where
  | rendered
  | redirected
  | forbiddenNotMember     -- HttpResponseForbidden: no access to this project / task
  | forbiddenAdminOnly     -- HttpResponseForbidden: only project admins can ...
  | forbiddenEditTask      -- HttpResponseForbidden: no permission to edit this task
  | forbiddenDeleteTask    -- HttpResponseForbidden: no permission to delete this task
  | lastAdminError         -- messages.error: cannot remove / change the role of the last admin
  | selfRemovalError       -- messages.error: you cannot remove yourself from the project
  | notFound               -- get_object_or_404 missed
  | typeErrorRaised        -- an uncaught Python TypeError escapes the view (HTTP 500)
  | integrityErrorRaised   -- an uncaught database IntegrityError escapes the view
  deriving DecidableEq, Repr

/-- `get_object_or_404(Project, pk=pk)`. -/
def findProject (db : DB) (pk : Nat) : Option Project :=
  db.projects.find? fun p => p.id == pk

/-- `ProjectMember.objects.get(user=.., project=..)`, `none` standing for
`ProjectMember.DoesNotExist`. -/
def findMembership (db : DB) (u pk : Nat) : Option ProjectMember :=
  db.memberships.find? fun m => m.user == u && m.project == pk

/-- `project.members.all()`: the users holding a membership of the project. -/
def projectUsers (db : DB) (pk : Nat) : List Nat :=
  (db.memberships.filter fun m => m.project == pk).map fun m => m.user

/-- `ProjectMember.objects.filter(project=project, role=admin).count()`. -/
def adminCount (db : DB) (pk : Nat) : Nat :=
  (db.memberships.filter fun m => m.project == pk && m.role == Role.admin).length

/-- `get_object_or_404(Task, pk=task_id)`. -/
def findTask (db : DB) (tid : Nat) : Option Task :=
  db.tasks.find? fun t => t.id == tid

/-- The data of `ProjectForm` (`projects/forms.py`): title, description and
status are all form fields. -/
structure ProjectFormData where
  title : String
  description : String
  status : PStatus
  deriving DecidableEq, Repr

/-- `ProjectForm.is_valid()`: title required with max_length 100,
description required; status is a typed choice. -/
abbrev projectFormValid (d : ProjectFormData) : Prop :=
  d.title ≠ "" ∧ d.title.length ≤ 100 ∧ d.description ≠ ""

/-- `projects.views.project_create`, POST branch.  The two writes sit inside
`transaction.atomic()`: if the membership insert fails (the simulated
failure of `ProjectMember.objects.create`, flag `memberInsertFails`), the
IntegrityError escapes and the transaction rolls back both writes. -/
def project_create (db : DB) (creator : Nat) (d : ProjectFormData)
    (memberInsertFails : Bool) : Outcome × DB :=
  if projectFormValid d then
    let project : Project :=
      { id := db.nextId, title := d.title, description := d.description, status := d.status }
    if memberInsertFails then
      (Outcome.integrityErrorRaised, db)
    else
      (Outcome.redirected,
        { db with
            projects := db.projects ++ [project],
            memberships :=
              db.memberships ++ [{ user := creator, project := project.id, role := Role.admin }],
            nextId := db.nextId + 1 })
  else
    (Outcome.rendered, db)

/-- The storage-layer unique constraint `unique_together = (user, project)`
of `ProjectMember.Meta`: inserting a row whose (user, project) pair already
exists raises IntegrityError and leaves the table unchanged. -/
def insertMembershipUnique (db : DB) (m : ProjectMember) : Option DB :=
  if db.memberships.any fun x => x.user == m.user && x.project == m.project then
    none
  else
    some { db with memberships := db.memberships ++ [m] }

/-- `projects.views.manage_members`.  After the admin gate, both the POST
and the GET branch construct `ProjectMemberForm(..., project=project)`;
`ProjectMemberForm.__init__` (`projects/forms.py`) runs
`super.__init__(*args, **kwargs)` with `super` not called, which raises
TypeError on every instantiation, so the submitted user and role are never
consumed and no member is ever added. -/
def manage_members (db : DB) (requester pk : Nat) (_targetUser : Nat)
    (_targetRole : Role) (_isPost : Bool) : Outcome × DB :=
  match findProject db pk with
  | none => (Outcome.notFound, db)
  | some project =>
    match findMembership db requester project.id with
    | none => (Outcome.forbiddenNotMember, db)
    | some membership =>
      if membership.role ≠ Role.admin then (Outcome.forbiddenAdminOnly, db)
      else (Outcome.typeErrorRaised, db)

/-- `projects.views.remove_member`.  The last-admin check runs before the
self-removal check, and both run before the POST check, so a GET already
reports the same errors; the deletion itself happens only on POST. -/
def remove_member (db : DB) (requester pk user_pk : Nat) (isPost : Bool) : Outcome × DB :=
  match findProject db pk with
  | none => (Outcome.notFound, db)
  | some project =>
    match findMembership db requester project.id with
    | none => (Outcome.forbiddenNotMember, db)
    | some membership =>
      if membership.role ≠ Role.admin then (Outcome.forbiddenAdminOnly, db)
      else
        match findMembership db user_pk project.id with
        | none => (Outcome.notFound, db)
        | some member_to_remove =>
          if member_to_remove.role = Role.admin ∧ adminCount db project.id ≤ 1 then
            (Outcome.lastAdminError, db)
          else if member_to_remove.user = requester then
            (Outcome.selfRemovalError, db)
          else if isPost then
            (Outcome.redirected,
              { db with memberships :=
                  db.memberships.filter fun m => !(m.user == user_pk && m.project == project.id) })
          else
            (Outcome.rendered, db)

/-- `projects.views.update_member_role`.  After the admin gate and the
target lookup, both the POST and the GET branch construct a
`ProjectMemberForm`; its `__init__` raises TypeError (see `manage_members`),
so the check guarding the last admin is never reached and the posted role is
never consumed. -/
def update_member_role (db : DB) (requester pk user_pk : Nat) (_newRole : Role) : Outcome × DB :=
  match findProject db pk with
  | none => (Outcome.notFound, db)
  | some project =>
    match findMembership db requester project.id with
    | none => (Outcome.forbiddenNotMember, db)
    | some membership =>
      if membership.role ≠ Role.admin then (Outcome.forbiddenAdminOnly, db)
      else
        match findMembership db user_pk project.id with
        | none => (Outcome.notFound, db)
        | some _member_to_update => (Outcome.typeErrorRaised, db)

/-- The data of `TaskForm` (`tasks/forms.py`). -/
structure TaskFormData where
  title : String
  description : String
  status : TStatus
  priority : TPriority
  due_date : Option Int
  assigned_to : Option Nat
  deriving DecidableEq, Repr

/-- The queryset restriction of `TaskForm.__init__`: when a project id is
supplied and resolves, the assigned_to dropdown holds only the members of
that project; otherwise it holds every user. -/
def taskFormAssignedOk (db : DB) (project_id : Nat) (assigned : Option Nat) : Bool :=
  match assigned with
  | none => true
  | some u =>
    if project_id ≠ 0 then
      match findProject db project_id with
      | some p => decide (u ∈ projectUsers db p.id)
      | none => decide (u ∈ db.users)
    else decide (u ∈ db.users)

/-- `TaskForm.is_valid()`: title required with max_length 100, description
required, assigned_to restricted to the dropdown queryset. -/
abbrev taskFormValid (db : DB) (project_id : Nat) (d : TaskFormData) : Prop :=
  d.title ≠ "" ∧ d.title.length ≤ 100 ∧ d.description ≠ "" ∧
  taskFormAssignedOk db project_id d.assigned_to = true

/-- `tasks.views.task_create`, POST branch.  The creator must be a member;
when nobody is assigned the task is assigned to the creator.  No
Notification row is written anywhere in this view. -/
def task_create (db : DB) (requester project_id : Nat) (d : TaskFormData) : Outcome × DB :=
  match findProject db project_id with
  | none => (Outcome.notFound, db)
  | some project =>
    if requester ∉ projectUsers db project.id then (Outcome.forbiddenNotMember, db)
    else if taskFormValid db project_id d then
      let task : Task :=
        { id := db.nextId, title := d.title, description := d.description,
          project := project.id, assigned_to := some (d.assigned_to.getD requester),
          status := d.status, priority := d.priority, due_date := d.due_date,
          created_by := requester }
      (Outcome.redirected, { db with tasks := db.tasks ++ [task], nextId := db.nextId + 1 })
    else (Outcome.rendered, db)

/-- `tasks.views.task_update`.  Edit requires role admin or manager, or
being the creator, or being the assignee; the form never carries the project
reference, so the project stays unchanged. -/
def task_update (db : DB) (requester task_id : Nat) (d : TaskFormData) (isPost : Bool) :
    Outcome × DB :=
  match findTask db task_id with
  | none => (Outcome.notFound, db)
  | some task =>
    if requester ∉ projectUsers db task.project then (Outcome.forbiddenNotMember, db)
    else
      match findMembership db requester task.project with
      | none => (Outcome.forbiddenNotMember, db)
      | some membership =>
        if membership.role ∉ [Role.admin, Role.manager] ∧ requester ≠ task.created_by ∧
            some requester ≠ task.assigned_to then
          (Outcome.forbiddenEditTask, db)
        else if isPost then
          if taskFormValid db task.project d then
            let upd : Task → Task := fun t =>
              if t.id == task_id then
                { t with
                    title := d.title, description := d.description, status := d.status,
                    priority := d.priority, due_date := d.due_date,
                    assigned_to := d.assigned_to }
              else t
            (Outcome.redirected, { db with tasks := db.tasks.map upd })
          else (Outcome.rendered, db)
        else (Outcome.rendered, db)

/-- `tasks.views.task_delete`.  Delete requires role admin or manager, or
being the creator; the assignee alone may not delete.  Deletion cascades to
the comments and attachments of the task. -/
def task_delete (db : DB) (requester task_id : Nat) (isPost : Bool) : Outcome × DB :=
  match findTask db task_id with
  | none => (Outcome.notFound, db)
  | some task =>
    if requester ∉ projectUsers db task.project then (Outcome.forbiddenNotMember, db)
    else
      match findMembership db requester task.project with
      | none => (Outcome.forbiddenNotMember, db)
      | some membership =>
        if membership.role ∉ [Role.admin, Role.manager] ∧ requester ≠ task.created_by then
          (Outcome.forbiddenDeleteTask, db)
        else if isPost then
          (Outcome.redirected,
            { db with
                tasks := db.tasks.filter fun t => !(t.id == task_id),
                comments := db.comments.filter fun c => !(c.task == task_id),
                attachments := db.attachments.filter fun a => !(a.task == task_id) })
        else (Outcome.rendered, db)

/-- `tasks.views.add_comment`, with `CommentForm` requiring a non-empty
content.  The view writes the Comment row and redirects; it writes no
Notification row. -/
def add_comment (db : DB) (requester task_id : Nat) (content : String) (isPost : Bool) :
    Outcome × DB :=
  match findTask db task_id with
  | none => (Outcome.notFound, db)
  | some task =>
    if requester ∉ projectUsers db task.project then (Outcome.forbiddenNotMember, db)
    else if isPost then
      if content ≠ "" then
        (Outcome.redirected,
          { db with
              comments := db.comments ++
                [{ id := db.nextId, task := task_id, author := requester, content := content }],
              nextId := db.nextId + 1 })
      else (Outcome.rendered, db)
    else (Outcome.rendered, db)

/-- The split of a Python string on a separator character:
`name.split(sep)`.  The result is never empty. -/
def splitOnChar (sep : Char) : List Char → List (List Char)
  | [] => [[]]
  | c :: cs =>
    match splitOnChar sep cs with
    | [] => [[]]
    | h :: t => if c = sep then [] :: h :: t else (c :: h) :: t

/-- `Attachment.save` (`tasks/models.py`): on the first save of a record
that carries a file, file_name, file_type and file_size are filled from the
blob; afterwards the parent save runs, which on insert assigns the fresh
primary key.  A record that already has an id keeps all three metadata
fields untouched. -/
def attachmentSave (a : Attachment) (fresh : Nat) : Attachment :=
  if a.id = none ∧ a.file.name ≠ [] then
    { a with
        id := some fresh,
        file_name := a.file.name,
        file_type :=
          (if 1 < (splitOnChar '.' a.file.name).length then
            ((splitOnChar '.' a.file.name).getLastD []).map Char.toLower
           else "unknown".toList),
        file_size := a.file.size }
  else
    { a with id := some (a.id.getD fresh) }

/-- `tasks.views.add_attachment`, POST branch: membership gate, then the
model save fills the metadata and the row is inserted. -/
def add_attachment (db : DB) (requester task_id : Nat) (blob : Option FileBlob)
    (isPost : Bool) : Outcome × DB :=
  match findTask db task_id with
  | none => (Outcome.notFound, db)
  | some task =>
    if requester ∉ projectUsers db task.project then (Outcome.forbiddenNotMember, db)
    else if isPost then
      match blob with
      | some f =>
        if f.name ≠ [] then
          let a := attachmentSave
            { id := none, task := task_id, file := f, file_name := [], file_type := [],
              file_size := 0, uploaded_by := requester } db.nextId
          (Outcome.redirected,
            { db with attachments := db.attachments ++ [a], nextId := db.nextId + 1 })
        else (Outcome.rendered, db)
      | none => (Outcome.rendered, db)
    else (Outcome.rendered, db)

/-- `Notification.create_notification` (`accounts/notification_models.py`):
the one factory writing a Notification row.  Nothing in the task or comment
views calls it. -/
def create_notification (db : DB) (user : Nat) (content : String) (link : String) :
    Notification × DB :=
  let n : Notification :=
    { id := db.nextId, user := user, content := content, link := link, read := false }
  (n, { db with notifications := db.notifications ++ [n], nextId := db.nextId + 1 })

/-- `Task.is_overdue` (`tasks/models.py`): due date present and strictly
before today a the evaluation date; the status is never consulted. -/
def Task.is_overdue (t : Task) (today : Int) : Bool :=
  match t.due_date with
  | some d => decide (d < today)
  | none => false

/-- The file type the specification describes: the lower-cased final
extension, or unknown when the name holds no dot. -/
def fileTypeSpec (name : List Char) : List Char :=
  if ('.' : Char) ∈ name then ((splitOnChar '.' name).getLastD []).map Char.toLower
  else "unknown".toList

/-! Concrete records used by closed theorems and witnesses. -/

def sampleProject : Project :=
  { id := 1, title := "Alpha", description := "d", status := PStatus.active }

/-- A task of project 1, created by user 5, assigned to user 7. -/
def sampleTask : Task :=
  { id := 10, title := "T", description := "td", project := 1, assigned_to := some 7,
    status := TStatus.todo, priority := TPriority.medium, due_date := none, created_by := 5 }

/-- One project whose single member, user 7, is its only admin. -/
def soloDB : DB :=
  { users := [7], projects := [sampleProject],
    memberships := [{ user := 7, project := 1, role := Role.admin }],
    tasks := [], comments := [], attachments := [], notifications := [], nextId := 2 }

/-- Project 1 with admins 5 and 6 and plain member 7, holding `sampleTask`;
user 9 exists but is no member. -/
def teamDB : DB :=
  { users := [5, 6, 7, 9], projects := [sampleProject],
    memberships := [{ user := 5, project := 1, role := Role.admin },
                    { user := 6, project := 1, role := Role.admin },
                    { user := 7, project := 1, role := Role.member }],
    tasks := [sampleTask], comments := [], attachments := [], notifications := [],
    nextId := 11 }

/-- An empty store. -/
def emptyDB : DB :=
  { users := [5], projects := [], memberships := [], tasks := [], comments := [],
    attachments := [], notifications := [], nextId := 1 }

def activeForm : ProjectFormData :=
  { title := "Alpha", description := "d", status := PStatus.active }

def archivedForm : ProjectFormData :=
  { title := "Alpha", description := "d", status := PStatus.archived }

def sampleForm : TaskFormData :=
  { title := "Beta", description := "bd", status := TStatus.todo,
    priority := TPriority.medium, due_date := none, assigned_to := none }

/-! Helper lemmas about the lookups. -/

theorem findProject_id {db : DB} {pk : Nat} {p : Project}
    (h : findProject db pk = some p) : p.id = pk := by
  unfold findProject at h
  simpa using List.find?_some h

theorem findProject_mem {db : DB} {pk : Nat} {p : Project}
    (h : findProject db pk = some p) : p ∈ db.projects := by
  unfold findProject at h
  exact List.mem_of_find?_eq_some h

theorem findMembership_spec {db : DB} {u pk : Nat} {m : ProjectMember}
    (h : findMembership db u pk = some m) :
    m ∈ db.memberships ∧ m.user = u ∧ m.project = pk := by
  unfold findMembership at h
  have h1 := List.find?_some h
  simp only [Bool.and_eq_true, beq_iff_eq] at h1
  exact ⟨List.mem_of_find?_eq_some h, h1.1, h1.2⟩

theorem mem_projectUsers_of_findMembership {db : DB} {u pk : Nat} {m : ProjectMember}
    (h : findMembership db u pk = some m) : u ∈ projectUsers db pk := by
  obtain ⟨hmem, hu, hp⟩ := findMembership_spec h
  unfold projectUsers
  exact List.mem_map.mpr ⟨m, List.mem_filter.mpr ⟨hmem, by simp [hp]⟩, hu⟩

theorem find_and_of_filter_singleton {α : Type} {p q : α → Bool} {l : List α} {v : α}
    (h : l.filter q = [v]) (hp : p v = true) :
    l.find? (fun a => p a && q a) = some v := by
  induction l with
  | nil => simp at h
  | cons c t ih =>
    by_cases hq : q c = true
    · simp only [List.filter_cons, if_pos hq] at h
      simp only [List.cons.injEq] at h
      obtain ⟨rfl, ht⟩ := h
      rw [List.find?_cons_of_pos]
      simp [hp, hq]
    · simp only [List.filter_cons, if_neg hq] at h
      rw [List.find?_cons_of_neg]
      · exact ih h
      · simp [Bool.eq_false_iff.mpr hq]

theorem filter_and_of_filter_singleton {α : Type} {p q : α → Bool} {l : List α} {v : α}
    (h : l.filter q = [v]) (hp : p v = true) :
    l.filter (fun a => q a && p a) = [v] := by
  induction l with
  | nil => simp at h
  | cons c t ih =>
    by_cases hq : q c = true
    · simp only [List.filter_cons, if_pos hq] at h
      simp only [List.cons.injEq] at h
      obtain ⟨rfl, ht⟩ := h
      have hnil : t.filter (fun a => q a && p a) = [] := by
        rw [List.filter_eq_nil_iff] at ht ⊢
        intro a ha
        simp [ht a ha]
      simp [List.filter_cons, hq, hp, hnil]
    · simp only [List.filter_cons, if_neg hq] at h
      simp only [List.filter_cons, hq, Bool.false_and, if_neg]
      simpa using ih h

/-! The claims. -/

/-- Claim C1 (code_bug): the claim says an update_role call targeting the
sole admin with a non-admin new role fails with LastAdminViolation.  In the
code, `ProjectMemberForm.__init__` calls `super.__init__` without the
parentheses after `super`, so every `update_member_role` request that
reaches the form raises TypeError instead: here the sole admin of project 1
asks to demote themselves to member and gets the crash, not the last-admin
error, with the database left unchanged. -/
theorem update_member_role_sole_admin_crashes :
    adminCount soloDB 1 = 1 ∧
    update_member_role soloDB 7 1 7 Role.member = (Outcome.typeErrorRaised, soloDB) ∧
    Outcome.typeErrorRaised ≠ Outcome.lastAdminError := by
  refine ⟨rfl, rfl, by decide⟩

/-- Claim C2: when the membership table of a project holds exactly one row,
and that row has role admin, a remove_member call that passes the admin gate
and targets that sole member fails with the last-admin error and leaves the
database unchanged (the last-admin check precedes both the self-removal
check and the deletion). -/
theorem remove_member_sole_admin_fails (db : DB) (proj : Project) (r u pk : Nat) (b : Bool)
    (mr : ProjectMember)
    (hproj : findProject db pk = some proj)
    (hsole : db.memberships.filter (fun m => m.project == pk) =
      [{ user := u, project := pk, role := Role.admin }])
    (hreq : findMembership db r pk = some mr) :
    remove_member db r pk u b = (Outcome.lastAdminError, db) := by
  have hid : proj.id = pk := findProject_id hproj
  obtain ⟨hmem, hu, hp⟩ := findMembership_spec hreq
  have hmr : mr = { user := u, project := pk, role := Role.admin } := by
    have hin : mr ∈ db.memberships.filter (fun m => m.project == pk) :=
      List.mem_filter.mpr ⟨hmem, by simp [hp]⟩
    rw [hsole] at hin
    simpa using hin
  have htgt : findMembership db u pk =
      some { user := u, project := pk, role := Role.admin } := by
    unfold findMembership
    exact find_and_of_filter_singleton hsole (by simp)
  have hcount : adminCount db pk = 1 := by
    unfold adminCount
    rw [filter_and_of_filter_singleton hsole (by simp)]
    rfl
  have hru : r = u := by rw [← hu, hmr]
  subst hru
  rw [hmr] at hreq
  unfold remove_member
  simp [hproj, hid, hreq, hcount]

/-- Witness for C2 at a concrete input: project 1 of `soloDB` has user 7 as
its only member and only admin; the call fails with the last-admin error and
the database is unchanged. -/
theorem remove_member_sole_admin_fails_witness :
    remove_member soloDB 7 1 7 true = (Outcome.lastAdminError, soloDB) :=
  remove_member_sole_admin_fails soloDB sampleProject 7 7 1 true
    { user := 7, project := 1, role := Role.admin } rfl rfl rfl

/-- Counterexample to claim C3 as stated: a self-removal call by the sole
admin of project 1 fails with the last-admin error, not with the
self-removal error, because the last-admin check runs first. -/
theorem remove_member_self_sole_admin_counterexample :
    (remove_member soloDB 7 1 7 true).1 = Outcome.lastAdminError ∧
    (remove_member soloDB 7 1 7 true).1 ≠ Outcome.selfRemovalError := by decide

/-- Claim C3 as amended: a remove_member call whose target equals the
requester never succeeds and never changes the database; it fails with the
self-removal error exactly when the requester is an admin and the project
has more than one admin; a non-admin requester is stopped by the admin-only
gate, and a sole admin gets the last-admin error first. -/
theorem remove_member_self_never_succeeds (db : DB) (proj : Project) (r pk : Nat) (b : Bool)
    (m : ProjectMember)
    (hproj : findProject db pk = some proj)
    (hm : findMembership db r pk = some m) :
    remove_member db r pk r b =
      ((if m.role ≠ Role.admin then Outcome.forbiddenAdminOnly
        else if adminCount db pk ≤ 1 then Outcome.lastAdminError
        else Outcome.selfRemovalError), db) := by
  have hid : proj.id = pk := findProject_id hproj
  obtain ⟨-, hu, -⟩ := findMembership_spec hm
  unfold remove_member
  by_cases hrole : m.role = Role.admin
  · by_cases hc : adminCount db pk ≤ 1
    · simp [hproj, hid, hm, hrole, hc]
    · simp [hproj, hid, hm, hrole, hc, hu]
  · simp [hproj, hid, hm, hrole]

/-- Witness for C3 (amended) at a concrete input: admin 5 of project 1 in
`teamDB` (which has two admins) removing themselves gets the self-removal
error and the database is unchanged. -/
theorem remove_member_self_never_succeeds_witness :
    remove_member teamDB 5 1 5 true = (Outcome.selfRemovalError, teamDB) :=
  (remove_member_self_never_succeeds teamDB sampleProject 5 1 true
    { user := 5, project := 1, role := Role.admin } rfl rfl).trans (by decide)

/-- Counterexample to claim C4 as stated: `ProjectForm` carries the status
field, so a creation request posting status archived succeeds and yields a
project whose status is archived, not active. -/
theorem project_create_archived_counterexample :
    (project_create emptyDB 5 archivedForm false).1 = Outcome.redirected ∧
    (project_create emptyDB 5 archivedForm false).2.projects =
      [{ id := 1, title := "Alpha", description := "d", status := PStatus.archived }] ∧
    PStatus.archived ≠ PStatus.active := by decide

/-- Claim C4 as amended: every successful project_create yields a Project
carrying the status submitted in the form (the form initial is active, but
archived may be posted), together with exactly one ProjectMember row for the
new project, the creator with role admin; the two writes are atomic — when
the membership insert fails, the whole transaction rolls back and the
database, the project row included, is unchanged. -/
theorem project_create_atomic (db : DB) (creator : Nat) (d : ProjectFormData) (fails : Bool)
    (hvalid : projectFormValid d)
    (hfresh : ∀ m ∈ db.memberships, m.project ≠ db.nextId) :
    (fails = true → project_create db creator d fails = (Outcome.integrityErrorRaised, db)) ∧
    (fails = false →
      (project_create db creator d fails).1 = Outcome.redirected ∧
      (project_create db creator d fails).2.projects = db.projects ++
        [{ id := db.nextId, title := d.title, description := d.description,
           status := d.status }] ∧
      ((project_create db creator d fails).2.memberships.filter
          fun m => m.project == db.nextId) =
        [{ user := creator, project := db.nextId, role := Role.admin }]) := by
  constructor
  · intro hf
    subst hf
    unfold project_create
    rw [if_pos hvalid]
    rfl
  · intro hf
    subst hf
    unfold project_create
    rw [if_pos hvalid]
    have h1 : db.memberships.filter (fun m => m.project == db.nextId) = [] := by
      rw [List.filter_eq_nil_iff]
      intro m hm
      simp [hfresh m hm]
    refine ⟨rfl, rfl, ?_⟩
    show ((db.memberships ++
        [({ user := creator, project := db.nextId, role := Role.admin } : ProjectMember)]).filter
        fun m => m.project == db.nextId) = _
    rw [List.filter_append, h1]
    simp

/-- Witness for C4 (amended) at a concrete input: creating a project in the
empty store with the active status succeeds, stores the submitted status and
exactly the one admin membership of the creator. -/
theorem project_create_atomic_witness :
    (project_create emptyDB 5 activeForm false).1 = Outcome.redirected ∧
    (project_create emptyDB 5 activeForm false).2.projects = emptyDB.projects ++
      [{ id := emptyDB.nextId, title := activeForm.title,
         description := activeForm.description, status := activeForm.status }] ∧
    ((project_create emptyDB 5 activeForm false).2.memberships.filter
        fun m => m.project == emptyDB.nextId) =
      [{ user := 5, project := emptyDB.nextId, role := Role.admin }] :=
  (project_create_atomic emptyDB 5 activeForm false (by decide) (by decide)).2 rfl

/-- Claim C5 (code_bug): the claim (and the spec) say every successful task
assignment and every successful comment creation enqueues a Notification
record.  `Notification.create_notification` exists but nothing in
`tasks/views.py` calls it: creating a task (which assigns it), updating a
task (which may reassign it) and adding a comment all leave the notification
table exactly as it was, on every input. -/
theorem no_notification_created (db : DB) (r tid pid : Nat) (content : String) (b : Bool)
    (d : TaskFormData) :
    (add_comment db r tid content b).2.notifications = db.notifications ∧
    (task_create db r pid d).2.notifications = db.notifications ∧
    (task_update db r tid d b).2.notifications = db.notifications := by
  refine ⟨?_, ?_, ?_⟩
  · unfold add_comment
    repeat' split
    all_goals rfl
  · unfold task_create
    repeat' split
    all_goals rfl
  · unfold task_update
    repeat' split
    all_goals rfl

/-- Claim C6 (code_bug): the claim says the second add_member with the same
(project, user) pair fails with DuplicateMembership and leaves the state
unchanged.  In the code every `manage_members` request, the first add
included, constructs `ProjectMemberForm` whose broken `super.__init__` call
raises TypeError: adding fresh user 9 and re-adding existing member 7 both
crash, nothing is ever inserted and no DuplicateMembership error is ever
produced. -/
theorem manage_members_add_crashes :
    manage_members teamDB 5 1 9 Role.member true = (Outcome.typeErrorRaised, teamDB) ∧
    manage_members teamDB 5 1 7 Role.member true = (Outcome.typeErrorRaised, teamDB) := by
  exact ⟨rfl, rfl⟩

/-- Claim C7: a plain member who is assigned to a task but did not create it
may edit the task (the update view never answers any forbidden outcome for
them) while their delete request is refused with the task-delete forbidden
answer and the database, the task included, is unchanged. -/
theorem assigned_member_edits_but_cannot_delete (db : DB) (r tid : Nat) (t : Task)
    (m : ProjectMember)
    (htask : findTask db tid = some t)
    (hm : findMembership db r t.project = some m)
    (hrole : m.role = Role.member)
    (hassigned : t.assigned_to = some r)
    (hnotcreator : t.created_by ≠ r) :
    (∀ d b, (task_update db r tid d b).1 = Outcome.rendered ∨
            (task_update db r tid d b).1 = Outcome.redirected) ∧
    (∀ b, task_delete db r tid b = (Outcome.forbiddenDeleteTask, db)) := by
  have hmem : r ∈ projectUsers db t.project := mem_projectUsers_of_findMembership hm
  constructor
  · intro d b
    unfold task_update
    simp only [htask]
    rw [if_neg (by simpa using hmem)]
    simp only [hm]
    rw [if_neg (fun hc => hc.2.2 hassigned.symm)]
    split_ifs <;> simp
  · intro b
    unfold task_delete
    simp only [htask]
    rw [if_neg (by simpa using hmem)]
    simp only [hm]
    rw [if_pos ⟨by simp [hrole], Ne.symm hnotcreator⟩]

/-- Witness for C7 at a concrete input: user 7 holds role member in project
1 of `teamDB`, is assigned to task 10 and did not create it; edit is never
forbidden, delete is forbidden and changes nothing. -/
theorem assigned_member_edits_but_cannot_delete_witness :
    (∀ d b, (task_update teamDB 7 10 d b).1 = Outcome.rendered ∨
            (task_update teamDB 7 10 d b).1 = Outcome.redirected) ∧
    (∀ b, task_delete teamDB 7 10 b = (Outcome.forbiddenDeleteTask, teamDB)) :=
  assigned_member_edits_but_cannot_delete teamDB 7 10 sampleTask
    { user := 7, project := 1, role := Role.member } rfl rfl rfl rfl (by decide)

theorem splitOnChar_ne_nil (sep : Char) (l : List Char) : splitOnChar sep l ≠ [] := by
  cases l with
  | nil => simp [splitOnChar]
  | cons c cs =>
    unfold splitOnChar
    rcases hs : splitOnChar sep cs with _ | ⟨h, t⟩
    · simp
    · by_cases hc : c = sep <;> simp [hc]

/-- The Python split of a name on the dot yields more than one part exactly
when the name holds a dot. -/
theorem one_lt_length_splitOnChar (sep : Char) (l : List Char) :
    1 < (splitOnChar sep l).length ↔ sep ∈ l := by
  induction l with
  | nil => simp [splitOnChar]
  | cons c cs ih =>
    unfold splitOnChar
    rcases hs : splitOnChar sep cs with _ | ⟨h, t⟩
    · exact absurd hs (splitOnChar_ne_nil sep cs)
    · rw [hs] at ih
      by_cases hc : c = sep
      · subst hc
        simp only [eq_self_iff_true, if_true, List.length_cons, List.mem_cons, true_or,
          iff_true]
        omega
      · simp only [if_neg hc, List.length_cons, List.mem_cons] at ih ⊢
        rw [ih]
        have hcs : ¬ sep = c := fun hx => hc hx.symm
        simp [hcs]

/-- The file_type expression of `Attachment.save` agrees with the wording of
the specification (lower-cased final extension, or unknown when the name has
no dot). -/
theorem file_type_eq_spec (name : List Char) :
    (if 1 < (splitOnChar '.' name).length then
      ((splitOnChar '.' name).getLastD []).map Char.toLower
     else "unknown".toList) = fileTypeSpec name := by
  unfold fileTypeSpec
  by_cases h : ('.' : Char) ∈ name
  · rw [if_pos ((one_lt_length_splitOnChar _ _).mpr h), if_pos h]
  · rw [if_neg (fun hl => h ((one_lt_length_splitOnChar _ _).mp hl)),
      if_neg h]

/-- Claim C8: on the first save of an attachment (no id yet) carrying a
blob, file_name, file_type and file_size come from the blob itself —
file_type being the lower-cased final extension, or unknown when the name
has no dot — and on every save of an already-stored attachment (id present)
the three metadata fields stay exactly as they were, whatever the underlying
file field now holds. -/
theorem attachment_metadata_set_once (a : Attachment) (i j sz : Nat) (c : Char)
    (cs : List Char) :
    ((attachmentSave { a with id := none, file := { name := c :: cs, size := sz } } i).file_name
        = c :: cs ∧
     (attachmentSave { a with id := none, file := { name := c :: cs, size := sz } } i).file_type
        = fileTypeSpec (c :: cs) ∧
     (attachmentSave { a with id := none, file := { name := c :: cs, size := sz } } i).file_size
        = sz) ∧
    ((attachmentSave { a with id := some j } i).file_name = a.file_name ∧
     (attachmentSave { a with id := some j } i).file_type = a.file_type ∧
     (attachmentSave { a with id := some j } i).file_size = a.file_size) := by
  constructor
  · unfold attachmentSave
    rw [if_pos ⟨rfl, List.cons_ne_nil c cs⟩]
    exact ⟨rfl, file_type_eq_spec (c :: cs), rfl⟩
  · unfold attachmentSave
    rw [if_neg (fun hc => Option.noConfusion hc.1)]
    exact ⟨rfl, rfl, rfl⟩

/-- Claim C9: is_overdue is true exactly when a due date is present and
strictly before the evaluation date; it ignores the status (a done task past
due is still overdue), and it is false with no due date or a due date equal
to today. -/
theorem is_overdue_characterization (t : Task) (today : Int) :
    (Task.is_overdue t today = true ↔ ∃ d, t.due_date = some d ∧ d < today) ∧
    (∀ s, Task.is_overdue { t with status := s } today = Task.is_overdue t today) ∧
    Task.is_overdue { t with due_date := none } today = false ∧
    Task.is_overdue { t with due_date := some today } today = false := by
  refine ⟨?_, fun s => rfl, rfl, by simp [Task.is_overdue]⟩
  unfold Task.is_overdue
  rcases t.due_date with _ | d <;> simp

/-- Claim C10: a task successfully created through task_create is appended
to the task table with a non-null assignee who is a member of the project:
the form restricts the dropdown to the project members, and with no assignee
posted the task goes to the creator, who passed the membership gate. -/
theorem task_create_assignee_is_member (db : DB) (r pid : Nat) (d : TaskFormData) (db' : DB)
    (hpos : ∀ p ∈ db.projects, 0 < p.id)
    (h : task_create db r pid d = (Outcome.redirected, db')) :
    ∃ t u, db'.tasks = db.tasks ++ [t] ∧ t.project = pid ∧ t.assigned_to = some u ∧
      u ∈ projectUsers db pid := by
  unfold task_create at h
  split at h
  · simp at h
  · rename_i p hfp
    have hid : p.id = pid := findProject_id hfp
    by_cases hmem : r ∉ projectUsers db p.id
    · rw [if_pos hmem] at h
      simp at h
    · rw [if_neg hmem] at h
      by_cases hval : taskFormValid db pid d
      · rw [if_pos hval] at h
        injection h with h1 h2
        subst h2
        refine ⟨_, d.assigned_to.getD r, rfl, hid, rfl, ?_⟩
        rcases hda : d.assigned_to with _ | v
        · simp only [hda, Option.getD_none]
          rw [← hid]
          exact not_not.mp hmem
        · simp only [hda, Option.getD_some]
          have hok := hval.2.2.2
          unfold taskFormAssignedOk at hok
          have hne : pid ≠ 0 := by
            have := hpos p (findProject_mem hfp)
            omega
          simp only [hda, if_pos hne, hfp] at hok
          rw [← hid]
          exact of_decide_eq_true hok
      · rw [if_neg hval] at h
        simp at h

/-- Witness for C10 at a concrete input: member 7 creates a task in project
1 of `teamDB` with no assignee posted; the stored task is assigned to a
member of project 1. -/
theorem task_create_assignee_is_member_witness :
    ∃ t u, (task_create teamDB 7 1 sampleForm).2.tasks = teamDB.tasks ++ [t] ∧
      t.project = 1 ∧ t.assigned_to = some u ∧ u ∈ projectUsers teamDB 1 :=
  task_create_assignee_is_member teamDB 7 1 sampleForm
    (task_create teamDB 7 1 sampleForm).2 (by decide) rfl

end Taskflow
